import Mathlib

/-!
# Subnet calculator: parser and subnet arithmetic

A shallow embedding of `parseInput`, `isValidIP` and `calculateSubnetInfo` of
`src/script.js` (class `SubnetCalculator`), together with the fragment of the
JavaScript semantics they rely on: `String.prototype.split` and `trim`,
`parseInt`, `Number`, the 32-bit bitwise operators, `Math.pow` and `Math.max`.

Strings are lists of characters.  A JavaScript Number is either `NaN`, an
infinity, or a finite value that is kept exact (a rational); the rounding of a
finite value to binary64 is not modelled, which changes nothing for integers of
magnitude below `2^53`, and negative zero is identified with zero.
-/

namespace SubnetCalculator

/-! ## JavaScript numbers -/

/-- A JavaScript Number: `NaN`, `+Infinity` / `-Infinity`, or a finite value. -/
inductive JSNum where
  | nan : JSNum
  | inf (neg : Bool) : JSNum
  | fin (q : ℚ) : JSNum
deriving DecidableEq

/-- The Number with a given integer value. -/
def JSNum.ofInt (i : Int) : JSNum := JSNum.fin (i : ℚ)

/-- The Number of a value that is an integer or `NaN` (as `parseInt` returns it);
`none` is `NaN`. -/
def JSNum.ofOpt : Option Int → JSNum
  | none => JSNum.nan
  | some i => JSNum.ofInt i

instance : Coe Int JSNum := ⟨JSNum.ofInt⟩

/-- Truncation toward zero of a Number, with `NaN` and the infinities sent to `0`
(the first steps of the abstract operations `ToInt32` and `ToUint32`). -/
def JSNum.trunc : JSNum → Int
  | JSNum.fin q => Int.tdiv q.num (q.den : Int)
  | _ => 0

/-- The abstract operation `ToUint32`: truncate, then reduce modulo `2^32`. -/
def ToUint32 (x : JSNum) : Nat := (x.trunc % 4294967296).toNat

/-- Reading of a 32-bit pattern as a signed integer (two's complement), the
result type of the operators `<<`, `&`, `|` and `~`. -/
def asInt32 (u : Nat) : Int :=
  if u < 2147483648 then (u : Int) else (u : Int) - 4294967296

/-- The operator `x << y`: the shift count is `ToUint32 y` modulo 32, the result
is a signed 32-bit integer. -/
def shl (x y : JSNum) : Int :=
  asInt32 ((ToUint32 x <<< (ToUint32 y % 32)) % 4294967296)

/-- The operator `x >>> y`: the shift count is `ToUint32 y` modulo 32, the result
is an unsigned 32-bit integer. -/
def ushr (x y : JSNum) : Int :=
  ((ToUint32 x >>> (ToUint32 y % 32) : Nat) : Int)

/-- The operator `x & y`. -/
def band (x y : JSNum) : Int := asInt32 (ToUint32 x &&& ToUint32 y)

/-- The operator `x | y`. -/
def bor (x y : JSNum) : Int := asInt32 (ToUint32 x ||| ToUint32 y)

/-- The operator `~x`. -/
def bnot (x : JSNum) : Int := asInt32 (4294967295 - ToUint32 x)

/-- The operator `x - y` on Numbers. -/
def JSNum.sub : JSNum → JSNum → JSNum
  | JSNum.nan, _ => JSNum.nan
  | _, JSNum.nan => JSNum.nan
  | JSNum.inf a, JSNum.inf b => if a = b then JSNum.nan else JSNum.inf a
  | JSNum.inf a, JSNum.fin _ => JSNum.inf a
  | JSNum.fin _, JSNum.inf b => JSNum.inf (!b)
  | JSNum.fin x, JSNum.fin y => JSNum.fin (x - y)

/-- The power `Math.pow(b, e)` for a positive integer base and an exponent that is
an integer or `NaN`. -/
def Math.pow (b : Nat) (e : Option Int) : JSNum :=
  match e with
  | none => JSNum.nan
  | some k =>
    if 0 ≤ k then JSNum.fin ((b ^ k.toNat : Nat) : ℚ)
    else JSNum.fin (mkRat 1 (b ^ (-k).toNat))

/-- The function `Math.max(x, y)`: `NaN` if either argument is `NaN`. -/
def Math.max : JSNum → JSNum → JSNum
  | JSNum.nan, _ => JSNum.nan
  | _, JSNum.nan => JSNum.nan
  | JSNum.inf false, _ => JSNum.inf false
  | _, JSNum.inf false => JSNum.inf false
  | JSNum.inf true, y => y
  | x, JSNum.inf true => x
  | JSNum.fin a, JSNum.fin b => JSNum.fin (if a ≤ b then b else a)

/-! ## JavaScript strings -/

/-- White space and line terminators, the characters removed by `trim` and
skipped by `parseInt` and `Number`. -/
def isWhiteSpace (c : Char) : Bool :=
  let n := c.toNat
  n = 0x09 || n = 0x0A || n = 0x0B || n = 0x0C || n = 0x0D || n = 0x20 ||
  n = 0xA0 || n = 0x1680 || (0x2000 ≤ n && n ≤ 0x200A) || n = 0x2028 ||
  n = 0x2029 || n = 0x202F || n = 0x205F || n = 0x3000 || n = 0xFEFF

/-- The method `s.trim()`. -/
def trim (s : List Char) : List Char :=
  ((s.dropWhile isWhiteSpace).reverse.dropWhile isWhiteSpace).reverse

/-- The method `s.split(c)` for a one-character separator: the pieces between the
occurrences of `c`; always at least one piece. -/
def split (s : List Char) (c : Char) : List (List Char) :=
  match s with
  | [] => [[]]
  | x :: xs =>
    if x = c then [] :: split xs c
    else match split xs c with
      | [] => [[x]]
      | p :: ps => (x :: p) :: ps

/-- Value of a character as a digit (`0`-`9`, then letters from 10 on); 36 for
any other character. -/
def digitValue (c : Char) : Nat :=
  let n := c.toNat
  if 48 ≤ n ∧ n ≤ 57 then n - 48
  else if 97 ≤ n ∧ n ≤ 122 then n - 87
  else if 65 ≤ n ∧ n ≤ 90 then n - 55
  else 36

/-- Whether a character is a digit in radix `r`. -/
def isRadixDigit (r : Nat) (c : Char) : Bool := decide (digitValue c < r)

/-- Value of a sequence of digits in radix `r`, most significant first. -/
def digitsValue (r : Nat) (ds : List Char) : Nat :=
  ds.foldl (fun acc c => acc * r + digitValue c) 0

/-- The function `parseInt(s)` without a radix argument: skip leading white
space, read an optional sign, an optional `0x` / `0X` that selects radix 16
(radix 10 otherwise), then the longest run of digits; `NaN` (`none`) when that
run is empty.  Whatever follows the digits is ignored. -/
def parseInt (s : List Char) : Option Int :=
  let s1 := s.dropWhile isWhiteSpace
  let neg := decide (s1.head? = some '-')
  let s2 := match s1 with
    | c :: r => if c = '+' ∨ c = '-' then r else s1
    | [] => s1
  let hex := match s2 with
    | a :: b :: _ => decide (a = '0' ∧ (b = 'x' ∨ b = 'X'))
    | _ => false
  let radix := if hex then 16 else 10
  let s3 := if hex then s2.drop 2 else s2
  let z := s3.takeWhile (isRadixDigit radix)
  if z = [] then none
  else some (if neg then -((digitsValue radix z : Nat) : Int) else ((digitsValue radix z : Nat) : Int))

/-- The value `m * 10^e` of a decimal literal with digits `m` and exponent `e`. -/
def scale10 (m : Nat) (e : Int) : ℚ :=
  if 0 ≤ e then ((m * 10 ^ e.toNat : Nat) : ℚ) else mkRat (m : Int) (10 ^ (-e).toNat)

/-- An unsigned decimal literal of the grammar of `Number`: `Infinity`, or digits
with an optional fraction and an optional exponent. -/
def strUnsignedDecimal (s : List Char) : JSNum :=
  if s = "Infinity".toList then JSNum.inf false
  else
    let ip := s.takeWhile (isRadixDigit 10)
    let r1 := s.dropWhile (isRadixDigit 10)
    let fp := match r1 with
      | c :: t => if c = '.' then t.takeWhile (isRadixDigit 10) else []
      | [] => []
    let r2 := match r1 with
      | c :: t => if c = '.' then t.dropWhile (isRadixDigit 10) else r1
      | [] => r1
    if ip = [] ∧ fp = [] then JSNum.nan
    else
      let mant : Nat := digitsValue 10 (ip ++ fp)
      match r2 with
      | [] => JSNum.fin (scale10 mant (-(fp.length : Int)))
      | e :: t =>
        if e = 'e' ∨ e = 'E' then
          let eneg := decide (t.head? = some '-')
          let ds := match t with
            | c :: r => if c = '+' ∨ c = '-' then r else t
            | [] => t
          if ds ≠ [] ∧ ds.all (isRadixDigit 10) = true then
            JSNum.fin (scale10 mant ((if eneg then -((digitsValue 10 ds : Nat) : Int)
              else ((digitsValue 10 ds : Nat) : Int)) - (fp.length : Int)))
          else JSNum.nan
        else JSNum.nan

/-- A signed decimal literal of the grammar of `Number`. -/
def strDecimal (s : List Char) : JSNum :=
  match s with
  | c :: r =>
    if c = '+' then strUnsignedDecimal r
    else if c = '-' then
      match strUnsignedDecimal r with
      | JSNum.nan => JSNum.nan
      | JSNum.inf b => JSNum.inf (!b)
      | JSNum.fin q => JSNum.fin (-q)
    else strUnsignedDecimal s
  | [] => strUnsignedDecimal s

/-- A binary, octal or hexadecimal integer literal (`0b`, `0o`, `0x` in either
case, then at least one digit of the radix), without sign. -/
def nonDecimalLiteral (s : List Char) : Option Nat :=
  match s with
  | a :: b :: ds =>
    let radix : Nat :=
      if b = 'x' ∨ b = 'X' then 16 else if b = 'o' ∨ b = 'O' then 8
      else if b = 'b' ∨ b = 'B' then 2 else 0
    if a = '0' ∧ radix ≠ 0 ∧ ds ≠ [] ∧ ds.all (isRadixDigit radix) = true then
      some (digitsValue radix ds)
    else none
  | _ => none

/-- The conversion `Number(s)` of a string: white space is trimmed, the empty
string is `0`, and the whole of what remains must be a numeric literal, else the
result is `NaN`. -/
def Number (s : List Char) : JSNum :=
  let t := trim s
  if t = [] then JSNum.fin 0
  else match nonDecimalLiteral t with
    | some n => JSNum.fin (n : ℚ)
    | none => strDecimal t

/-! ## The parser (`parseInput`, `isValidIP`) -/

/-- The method `isValidIP(ip)`: four parts between dots, each of which `parseInt`
reads as a number that is not `NaN` and lies in `[0, 255]`. -/
def isValidIP (ip : List Char) : Bool :=
  let parts := split ip '.'
  if parts.length ≠ 4 then false
  else parts.all (fun part =>
    match parseInt part with
    | none => false
    | some num => decide (0 ≤ num) && decide (num ≤ 255))

/-- The method `parseInput(input)`: the address string and the CIDR value, or the
message of the error thrown.  A comparison with `NaN` is false, so a CIDR value
`NaN` passes the range check. -/
def parseInput (input : List Char) : Except String (List Char × Option Int) :=
  let parts := split input '/'
  if parts.length ≠ 2 then
    Except.error "Invalid format. Use IP/CIDR notation (e.g., 192.168.1.10/24)"
  else
    let ip := trim (parts.getD 0 [])
    let cidr := parseInt (trim (parts.getD 1 []))
    if !isValidIP ip then Except.error "Invalid IP address format"
    else if (match cidr with
        | none => false
        | some c => decide (c < 0) || decide (c > 32)) then
      Except.error "CIDR must be between 0 and 32"
    else Except.ok (ip, cidr)

/-! ## The subnet arithmetic (`calculateSubnetInfo`) -/

/-- The record returned by `calculateSubnetInfo`. -/
structure SubnetInfo where
  ip : List JSNum
  cidr : Option Int
  network : List Int
  broadcast : List Int
  mask : List Int
  firstUsable : List Int
  lastUsable : List Int
  totalHosts : JSNum
  usableHosts : JSNum
  networkBits : Option Int
  hostBits : Option Int

/-- The four expressions `(x >>> 24) & 0xFF`, `(x >>> 16) & 0xFF`,
`(x >>> 8) & 0xFF`, `x & 0xFF` that the source writes out for each address. -/
def octets (x : Int) : List Int :=
  [band (ushr x (24 : Int)) (255 : Int), band (ushr x (16 : Int)) (255 : Int),
   band (ushr x (8 : Int)) (255 : Int), band x (255 : Int)]

/-- The value `ipInt` of `calculateSubnetInfo` (lines 79-80); an index past the
end of `ipParts` reads `undefined`, which the shift converts like `NaN`. -/
def ipInt (ipParts : List JSNum) : Int :=
  bor (bor (bor (shl (ipParts.getD 0 JSNum.nan) (24 : Int))
    (shl (ipParts.getD 1 JSNum.nan) (16 : Int)))
    (shl (ipParts.getD 2 JSNum.nan) (8 : Int))) (ipParts.getD 3 JSNum.nan)

/-- The value `maskInt` of `calculateSubnetInfo` (line 83). -/
def maskInt (cidr : Option Int) : Int :=
  ushr (shl (4294967295 : Int) (JSNum.ofOpt (cidr.map (fun c => 32 - c)))) (0 : Int)

/-- The method `calculateSubnetInfo(ip, cidr)`.  The argument `cidr` is the value
that `parseInput` returns, an integer or `NaN` (`none`). -/
def calculateSubnetInfo (ip : List Char) (cidr : Option Int) : SubnetInfo :=
  let ipParts := (split ip '.').map Number
  let ipInt := ipInt ipParts
  let maskInt := maskInt cidr
  let networkInt := ushr (band ipInt maskInt) (0 : Int)
  let wildcardInt := ushr (bnot maskInt) (0 : Int)
  let broadcastInt := ushr (bor networkInt wildcardInt) (0 : Int)
  let firstUsableInt := networkInt + 1
  let lastUsableInt := broadcastInt - 1
  let totalHosts := Math.pow 2 (cidr.map (fun c => 32 - c))
  let usableHosts := Math.max (0 : Int) (totalHosts.sub (2 : Int))
  { ip := ipParts
    cidr := cidr
    network := octets networkInt
    broadcast := octets broadcastInt
    mask := octets maskInt
    firstUsable := octets firstUsableInt
    lastUsable := octets lastUsableInt
    totalHosts := totalHosts
    usableHosts := usableHosts
    networkBits := cidr
    hostBits := cidr.map (fun c => 32 - c) }

/-! ## Reading an address as a number -/

/-- The unsigned 32-bit value of four octets, most significant first. -/
def toUint (parts : List Int) : Nat :=
  (parts.foldl (fun acc o => acc * 256 + o) 0).toNat

/-! ## Vocabulary of the statements -/

/-- The unsigned value of `ipInt` for the address string `ip`. -/
def ipU (ip : List Char) : Nat := ToUint32 (JSNum.ofInt (ipInt ((split ip '.').map Number)))

/-- The unsigned value `maskInt`. -/
def maskU (cidr : Option Int) : Nat := ToUint32 (JSNum.ofInt (maskInt cidr))

/-- A nonempty string of decimal digits. -/
def IsDecimal (s : List Char) : Prop := s ≠ [] ∧ s.all (isRadixDigit 10) = true

/-- The dotted address string made of four parts. -/
def dotted (o1 o2 o3 o4 : List Char) : List Char :=
  o1 ++ '.' :: (o2 ++ '.' :: (o3 ++ '.' :: o4))

/-- The address string `ip` is read by `calculateSubnetInfo` (line 79: split on
the dots, then `Number`) as the four octets `a`, `b`, `c`, `d`, each in `[0, 255]`. -/
def HasOctets (ip : List Char) (a b c d : Nat) : Prop :=
  (split ip '.').map Number
      = [JSNum.ofInt (a : Int), JSNum.ofInt (b : Int), JSNum.ofInt (c : Int), JSNum.ofInt (d : Int)]
    ∧ a ≤ 255 ∧ b ≤ 255 ∧ c ≤ 255 ∧ d ≤ 255

/-- The big-endian unpacking of an unsigned 32-bit value into four octets. -/
def bigEndian (n : Nat) : List Int :=
  [((n / 16777216 % 256 : Nat) : Int), ((n / 65536 % 256 : Nat) : Int),
   ((n / 256 % 256 : Nat) : Int), ((n % 256 : Nat) : Int)]

/-- Two records describe the same subnet: they agree on mask, network, broadcast,
firstUsable, lastUsable, totalHosts and usableHosts. -/
def SameSubnet (r s : SubnetInfo) : Prop :=
  r.mask = s.mask ∧ r.network = s.network ∧ r.broadcast = s.broadcast
    ∧ r.firstUsable = s.firstUsable ∧ r.lastUsable = s.lastUsable
    ∧ r.totalHosts = s.totalHosts ∧ r.usableHosts = s.usableHosts

/-! ## The 32-bit operators on unsigned values -/

theorem trunc_ofInt (i : Int) : (JSNum.ofInt i).trunc = i := by
  simp [JSNum.ofInt, JSNum.trunc]

theorem ToUint32_ofInt (i : Int) : ToUint32 (JSNum.ofInt i) = (i % 4294967296).toNat := by
  simp [ToUint32, trunc_ofInt]

theorem ToUint32_lt (x : JSNum) : ToUint32 x < 4294967296 := by
  unfold ToUint32
  omega

theorem ToUint32_asInt32 (u : Nat) (h : u < 4294967296) :
    ToUint32 (JSNum.ofInt (asInt32 u)) = u := by
  rw [ToUint32_ofInt]
  unfold asInt32
  split <;> omega

theorem ToUint32_natCast (u : Nat) (h : u < 4294967296) :
    ToUint32 (JSNum.ofInt (u : Int)) = u := by
  rw [ToUint32_ofInt]
  omega

theorem ToUint32_band (x y : JSNum) :
    ToUint32 (JSNum.ofInt (band x y)) = ToUint32 x &&& ToUint32 y := by
  unfold band
  apply ToUint32_asInt32
  exact lt_of_le_of_lt Nat.and_le_left (ToUint32_lt x)

theorem ToUint32_bor (x y : JSNum) :
    ToUint32 (JSNum.ofInt (bor x y)) = ToUint32 x ||| ToUint32 y := by
  unfold bor
  apply ToUint32_asInt32
  exact Nat.or_lt_two_pow (n := 32) (ToUint32_lt x) (ToUint32_lt y)

theorem ToUint32_bnot (x : JSNum) :
    ToUint32 (JSNum.ofInt (bnot x)) = 4294967295 - ToUint32 x := by
  unfold bnot
  apply ToUint32_asInt32
  omega

theorem ToUint32_shl (x y : JSNum) :
    ToUint32 (JSNum.ofInt (shl x y)) = (ToUint32 x <<< (ToUint32 y % 32)) % 4294967296 := by
  unfold shl
  apply ToUint32_asInt32
  exact Nat.mod_lt _ (by norm_num)

theorem ToUint32_ushr (x y : JSNum) :
    ToUint32 (JSNum.ofInt (ushr x y)) = ToUint32 x >>> (ToUint32 y % 32) := by
  unfold ushr
  apply ToUint32_natCast
  rw [Nat.shiftRight_eq_div_pow]
  exact lt_of_le_of_lt (Nat.div_le_self _ _) (ToUint32_lt x)

theorem ushr_zero (x : JSNum) : ushr x (JSNum.ofInt 0) = (ToUint32 x : Int) := by
  simp [ushr, ToUint32_ofInt]

theorem octets_eq (x : Int) :
    octets x = [((ToUint32 (JSNum.ofInt x) / 16777216 % 256 : Nat) : Int),
      ((ToUint32 (JSNum.ofInt x) / 65536 % 256 : Nat) : Int),
      ((ToUint32 (JSNum.ofInt x) / 256 % 256 : Nat) : Int),
      ((ToUint32 (JSNum.ofInt x) % 256 : Nat) : Int)] := by
  have h255 : ToUint32 (JSNum.ofInt 255) = 2 ^ 8 - 1 := by rw [ToUint32_ofInt]; rfl
  have hsmall : ∀ n : Nat, asInt32 (n % 256) = ((n % 256 : Nat) : Int) := by
    intro n
    unfold asInt32
    have := Nat.mod_lt n (show 0 < 256 by norm_num)
    rw [if_pos (by omega)]
  have e24 : ToUint32 (JSNum.ofInt 24) % 32 = 24 := by rw [ToUint32_ofInt]; rfl
  have e16 : ToUint32 (JSNum.ofInt 16) % 32 = 16 := by rw [ToUint32_ofInt]; rfl
  have e8 : ToUint32 (JSNum.ofInt 8) % 32 = 8 := by rw [ToUint32_ofInt]; rfl
  simp only [octets, band, ToUint32_ushr, h255, Nat.and_pow_two_sub_one_eq_mod, e24, e16, e8,
    Nat.shiftRight_eq_div_pow]
  norm_num [hsmall]

theorem toUint_octets (x : Int) : toUint (octets x) = ToUint32 (JSNum.ofInt x) := by
  rw [octets_eq]
  have := ToUint32_lt (JSNum.ofInt x)
  simp only [toUint, List.foldl]
  omega

theorem or_eq_add_of_lt (i a b : Nat) (h : b < 2 ^ i) : (a * 2 ^ i ||| b) = a * 2 ^ i + b := by
  rw [Nat.mul_comm]
  exact (Nat.mul_add_lt_is_or h a).symm

theorem ipInt_octets (a b c d : Nat) (ha : a ≤ 255) (hb : b ≤ 255) (hc : c ≤ 255)
    (hd : d ≤ 255) :
    ToUint32 (JSNum.ofInt (ipInt [JSNum.ofInt a, JSNum.ofInt b, JSNum.ofInt c, JSNum.ofInt d]))
      = a * 16777216 + b * 65536 + c * 256 + d := by
  have e24 : ToUint32 (JSNum.ofInt 24) % 32 = 24 := by rw [ToUint32_ofInt]; rfl
  have e16 : ToUint32 (JSNum.ofInt 16) % 32 = 16 := by rw [ToUint32_ofInt]; rfl
  have e8 : ToUint32 (JSNum.ofInt 8) % 32 = 8 := by rw [ToUint32_ofInt]; rfl
  have h1 := or_eq_add_of_lt 24 a (b * 65536) (by omega)
  have h2 := or_eq_add_of_lt 16 (a * 256 + b) (c * 256) (by omega)
  have h3 := or_eq_add_of_lt 8 (a * 65536 + b * 256 + c) d (by omega)
  simp only [ipInt, List.getD_cons_zero, List.getD_cons_succ, ToUint32_bor, ToUint32_shl,
    ToUint32_natCast a (by omega), ToUint32_natCast b (by omega), ToUint32_natCast c (by omega),
    ToUint32_natCast d (by omega), e24, e16, e8, Nat.shiftLeft_eq]
  norm_num at h1 h2 h3 ⊢
  rw [Nat.mod_eq_of_lt (by omega : a * 16777216 < 4294967296),
    Nat.mod_eq_of_lt (by omega : b * 65536 < 4294967296),
    Nat.mod_eq_of_lt (by omega : c * 256 < 4294967296), h1]
  rw [show a * 16777216 + b * 65536 = (a * 256 + b) * 65536 by ring, h2]
  rw [show (a * 256 + b) * 65536 + c * 256 = (a * 65536 + b * 256 + c) * 256 by ring, h3]

theorem and_not_eq_zero (x m : Nat) (hm : m < 4294967296) :
    (x &&& m) &&& (4294967295 - m) = 0 := by
  apply Nat.eq_of_testBit_eq
  intro i
  have h := Nat.testBit_two_pow_sub_succ (n := 32) (x := m) (by simpa using hm) i
  rw [show 4294967295 - m = 2 ^ 32 - (m + 1) by omega]
  simp only [Nat.testBit_and, h, Nat.zero_testBit]
  cases x.testBit i <;> cases m.testBit i <;> simp

theorem testBit_wildcard (m : Nat) (hm : m < 4294967296) (i : Nat) :
    (4294967295 - m).testBit i = (decide (i < 32) && !m.testBit i) := by
  rw [show 4294967295 - m = 2 ^ 32 - (m + 1) by omega]
  exact Nat.testBit_two_pow_sub_succ (by simpa using hm) i

theorem and_and_self (x m : Nat) : (x &&& m) &&& m = x &&& m := by
  apply Nat.eq_of_testBit_eq
  intro i
  simp only [Nat.testBit_and]
  cases x.testBit i <;> cases m.testBit i <;> simp

theorem or_not_and_not (x m : Nat) (hm : m < 4294967296) :
    ((x &&& m) ||| (4294967295 - m)) &&& (4294967295 - m) = 4294967295 - m := by
  apply Nat.eq_of_testBit_eq
  intro i
  simp only [Nat.testBit_and, Nat.testBit_or, testBit_wildcard m hm]
  cases x.testBit i <;> cases m.testBit i <;> simp

theorem or_not_and (x m : Nat) (hm : m < 4294967296) :
    ((x &&& m) ||| (4294967295 - m)) &&& m = x &&& m := by
  apply Nat.eq_of_testBit_eq
  intro i
  simp only [Nat.testBit_and, Nat.testBit_or, testBit_wildcard m hm]
  cases x.testBit i <;> cases m.testBit i <;> simp

theorem or_not_or_not (x m : Nat) :
    ((x &&& m) ||| (4294967295 - m)) ||| (4294967295 - m) = (x &&& m) ||| (4294967295 - m) := by
  apply Nat.eq_of_testBit_eq
  intro i
  simp only [Nat.testBit_or]
  cases (x &&& m).testBit i <;> cases (4294967295 - m).testBit i <;> simp

theorem maskU_lt (cidr : Option Int) : maskU cidr < 4294967296 := ToUint32_lt _

theorem maskInt_eq (cidr : Option Int) : maskInt cidr = (maskU cidr : Int) := by
  have h : maskInt cidr = (ToUint32 (JSNum.ofInt (shl (JSNum.ofInt 4294967295)
      (JSNum.ofOpt (cidr.map (fun c => 32 - c))))) : Int) := by
    unfold maskInt
    exact ushr_zero _
  unfold maskU
  rw [h, ToUint32_natCast _ (ToUint32_lt _)]

theorem mask_toUint (ip : List Char) (cidr : Option Int) :
    toUint (calculateSubnetInfo ip cidr).mask = maskU cidr := by
  simp only [calculateSubnetInfo, toUint_octets, maskU]

theorem network_toUint (ip : List Char) (cidr : Option Int) :
    toUint (calculateSubnetInfo ip cidr).network = ipU ip &&& maskU cidr := by
  unfold ipU maskU
  simp only [calculateSubnetInfo, toUint_octets, ushr_zero, ToUint32_band]
  rw [ToUint32_natCast]
  exact lt_of_le_of_lt Nat.and_le_right (ToUint32_lt _)

theorem broadcast_toUint (ip : List Char) (cidr : Option Int) :
    toUint (calculateSubnetInfo ip cidr).broadcast
      = (ipU ip &&& maskU cidr) ||| (4294967295 - maskU cidr) := by
  have h1 : ipU ip &&& maskU cidr < 4294967296 :=
    lt_of_le_of_lt Nat.and_le_right (maskU_lt _)
  have h2 : 4294967295 - maskU cidr < 4294967296 := by omega
  have h3 : (ipU ip &&& maskU cidr) ||| (4294967295 - maskU cidr) < 4294967296 :=
    Nat.or_lt_two_pow (n := 32) h1 h2
  unfold ipU maskU at h1 h2 h3 ⊢
  simp only [calculateSubnetInfo, toUint_octets, ushr_zero, ToUint32_band, ToUint32_bor,
    ToUint32_bnot]
  rw [ToUint32_natCast _ h1, ToUint32_natCast _ h2, ToUint32_natCast _ h3]

/-! ## Strings of decimal digits -/

theorem digit_toNat (c : Char) (h : isRadixDigit 10 c = true) :
    48 ≤ c.toNat ∧ c.toNat ≤ 57 := by
  unfold isRadixDigit digitValue at h
  simp only [decide_eq_true_eq] at h
  split_ifs at h <;> omega

theorem digit_ne (c d : Char) (h : isRadixDigit 10 c = true)
    (hd : d.toNat < 48 ∨ 57 < d.toNat) : c ≠ d := by
  intro e
  subst e
  have := digit_toNat c h
  omega

theorem digit_not_ws (c : Char) (h : isRadixDigit 10 c = true) : isWhiteSpace c = false := by
  have := digit_toNat c h
  simp only [isWhiteSpace, Bool.or_eq_false_iff, Bool.and_eq_false_imp, decide_eq_false_iff_not,
    decide_eq_true_eq]
  omega

theorem split_of_not_mem (c : Char) (s : List Char) (h : c ∉ s) : split s c = [s] := by
  induction s with
  | nil => rfl
  | cons x xs ih =>
    have hx : x ≠ c := fun e => h (by simp [e])
    have hxs : c ∉ xs := fun e => h (by simp [e])
    simp [split, hx, ih hxs]

theorem split_append (c : Char) (s t : List Char) (h : c ∉ s) :
    split (s ++ c :: t) c = s :: split t c := by
  induction s with
  | nil => simp [split]
  | cons x xs ih =>
    have hx : x ≠ c := fun e => h (by simp [e])
    have hxs : c ∉ xs := fun e => h (by simp [e])
    simp [split, hx, ih hxs]

theorem dropWhile_of_all_false (p : Char → Bool) (s : List Char)
    (h : ∀ c ∈ s, p c = false) : s.dropWhile p = s := by
  cases s with
  | nil => rfl
  | cons x xs => simp [List.dropWhile, h x (by simp)]

theorem trim_of_no_ws (s : List Char) (h : ∀ c ∈ s, isWhiteSpace c = false) : trim s = s := by
  unfold trim
  rw [dropWhile_of_all_false _ s h, dropWhile_of_all_false _ s.reverse (by simpa using h)]
  simp

theorem takeWhile_of_all (p : Char → Bool) (s : List Char) (h : s.all p = true) :
    s.takeWhile p = s := by
  induction s with
  | nil => rfl
  | cons x xs ih =>
    simp only [List.all_cons, Bool.and_eq_true] at h
    simp [List.takeWhile, h.1, ih h.2]

theorem IsDecimal.mem {s : List Char} (h : IsDecimal s) :
    ∀ c ∈ s, isRadixDigit 10 c = true := by
  have := h.2
  simpa [List.all_eq_true] using this

theorem parseInt_decimal (s : List Char) (h : IsDecimal s) :
    parseInt s = some ((digitsValue 10 s : Nat) : Int) := by
  obtain ⟨hne, hall⟩ := h
  cases s with
  | nil => exact absurd rfl hne
  | cons x xs =>
    have hx : isRadixDigit 10 x = true := by
      simp only [List.all_cons, Bool.and_eq_true] at hall
      exact hall.1
    have hws := digit_not_ws x hx
    have hplus : x ≠ '+' := digit_ne x '+' hx (by decide)
    have hminus : x ≠ '-' := digit_ne x '-' hx (by decide)
    have hhex : (match x :: xs with
        | a :: b :: _ => decide (a = '0' ∧ (b = 'x' ∨ b = 'X'))
        | _ => false) = false := by
      cases xs with
      | nil => rfl
      | cons y ys =>
        have hy : isRadixDigit 10 y = true := by
          simp only [List.all_cons, Bool.and_eq_true] at hall
          exact hall.2.1
        have h1 : y ≠ 'x' := digit_ne y 'x' hy (by decide)
        have h2 : y ≠ 'X' := digit_ne y 'X' hy (by decide)
        simp [h1, h2]
    simp only [parseInt, List.dropWhile, hws, List.head?_cons, Option.some.injEq, hminus,
      decide_False, hplus, or_self, if_false, hhex, Bool.false_eq_true,
      takeWhile_of_all _ _ hall]
    simp

/-! ## The fields of the record -/

theorem network_eq (ip : List Char) (cidr : Option Int) :
    (calculateSubnetInfo ip cidr).network = octets ((ipU ip &&& maskU cidr : Nat) : Int) := by
  unfold ipU maskU
  simp only [calculateSubnetInfo, ushr_zero, ToUint32_band]

theorem broadcast_eq (ip : List Char) (cidr : Option Int) :
    (calculateSubnetInfo ip cidr).broadcast
      = octets (((ipU ip &&& maskU cidr) ||| (4294967295 - maskU cidr) : Nat) : Int) := by
  have h1 : ipU ip &&& maskU cidr < 4294967296 :=
    lt_of_le_of_lt Nat.and_le_right (maskU_lt _)
  have h2 : 4294967295 - maskU cidr < 4294967296 := by omega
  unfold ipU maskU at h1 h2 ⊢
  simp only [calculateSubnetInfo, ushr_zero, ToUint32_band, ToUint32_bor, ToUint32_bnot]
  rw [ToUint32_natCast _ h1, ToUint32_natCast _ h2]

theorem octets_natCast (n : Nat) (h : n < 4294967296) :
    octets (n : Int) = [((n / 16777216 % 256 : Nat) : Int), ((n / 65536 % 256 : Nat) : Int),
      ((n / 256 % 256 : Nat) : Int), ((n % 256 : Nat) : Int)] := by
  rw [octets_eq, ToUint32_natCast n h]

theorem octets_bounds (x o : Int) (h : o ∈ octets x) : 0 ≤ o ∧ o ≤ 255 := by
  rw [octets_eq] at h
  simp only [List.mem_cons, List.mem_singleton, List.not_mem_nil, or_false] at h
  omega

theorem toUint_quad (a b c d : Nat) :
    toUint [(a : Int), (b : Int), (c : Int), (d : Int)] = a * 16777216 + b * 65536 + c * 256 + d := by
  simp only [toUint, List.foldl]
  omega

theorem ipU_of_octets (ip : List Char) (a b c d : Nat) (h : HasOctets ip a b c d) :
    ipU ip = a * 16777216 + b * 65536 + c * 256 + d := by
  obtain ⟨hp, ha, hb, hc, hd⟩ := h
  unfold ipU
  rw [hp]
  exact ipInt_octets a b c d ha hb hc hd

theorem maskU_zero : maskU (some 0) = 4294967295 := by decide

theorem maskU_of_pos (p : Nat) (h1 : 1 ≤ p) (h : p ≤ 32) :
    maskU (some (p : Int)) = 4294967296 - 2 ^ (32 - p) := by
  interval_cases p <;> decide

theorem split_dotted (o1 o2 o3 o4 : List Char) (h1 : IsDecimal o1) (h2 : IsDecimal o2)
    (h3 : IsDecimal o3) (h4 : IsDecimal o4) :
    split (dotted o1 o2 o3 o4) '.' = [o1, o2, o3, o4] := by
  have nd : ∀ o : List Char, IsDecimal o → '.' ∉ o := fun o ho hm =>
    digit_ne '.' '.' (ho.mem '.' hm) (by decide) rfl
  unfold dotted
  rw [split_append _ _ _ (nd o1 h1), split_append _ _ _ (nd o2 h2),
    split_append _ _ _ (nd o3 h3), split_of_not_mem _ _ (nd o4 h4)]

theorem isValidIP_dotted (o1 o2 o3 o4 : List Char) (h1 : IsDecimal o1) (h2 : IsDecimal o2)
    (h3 : IsDecimal o3) (h4 : IsDecimal o4) (v1 : digitsValue 10 o1 ≤ 255)
    (v2 : digitsValue 10 o2 ≤ 255) (v3 : digitsValue 10 o3 ≤ 255)
    (v4 : digitsValue 10 o4 ≤ 255) : isValidIP (dotted o1 o2 o3 o4) = true := by
  unfold isValidIP
  rw [split_dotted o1 o2 o3 o4 h1 h2 h3 h4]
  simp only [List.length_cons, List.length_nil, List.all_cons, List.all_nil,
    parseInt_decimal _ h1, parseInt_decimal _ h2, parseInt_decimal _ h3, parseInt_decimal _ h4]
  simp
  omega

theorem parseInput_dotted (o1 o2 o3 o4 p : List Char) (h1 : IsDecimal o1) (h2 : IsDecimal o2)
    (h3 : IsDecimal o3) (h4 : IsDecimal o4) (hp : IsDecimal p) (v1 : digitsValue 10 o1 ≤ 255)
    (v2 : digitsValue 10 o2 ≤ 255) (v3 : digitsValue 10 o3 ≤ 255)
    (v4 : digitsValue 10 o4 ≤ 255) (vp : digitsValue 10 p ≤ 32) :
    parseInput (dotted o1 o2 o3 o4 ++ '/' :: p)
      = Except.ok (dotted o1 o2 o3 o4, some ((digitsValue 10 p : Nat) : Int)) := by
  have hmem : ∀ c ∈ dotted o1 o2 o3 o4, c = '.' ∨ isRadixDigit 10 c = true := by
    intro c hc
    simp only [dotted, List.mem_append, List.mem_cons] at hc
    rcases hc with h | h | h | h | h | h | h
    · exact Or.inr (h1.mem c h)
    · exact Or.inl h
    · exact Or.inr (h2.mem c h)
    · exact Or.inl h
    · exact Or.inr (h3.mem c h)
    · exact Or.inl h
    · exact Or.inr (h4.mem c h)
  have hslash : '/' ∉ dotted o1 o2 o3 o4 := by
    intro hm
    rcases hmem _ hm with h | h
    · exact absurd h (by decide)
    · exact digit_ne '/' '/' h (by decide) rfl
  have hslashp : '/' ∉ p := fun hm => digit_ne '/' '/' (hp.mem _ hm) (by decide) rfl
  have hws : ∀ c ∈ dotted o1 o2 o3 o4, isWhiteSpace c = false := by
    intro c hc
    rcases hmem c hc with h | h
    · subst h; decide
    · exact digit_not_ws c h
  have hwsp : ∀ c ∈ p, isWhiteSpace c = false := fun c hc => digit_not_ws c (hp.mem c hc)
  unfold parseInput
  rw [split_append _ _ _ hslash, split_of_not_mem _ _ hslashp]
  simp only [List.length_cons, List.length_nil, List.getD_cons_zero, List.getD_cons_succ,
    trim_of_no_ws _ hws, trim_of_no_ws _ hwsp, parseInt_decimal _ hp,
    isValidIP_dotted o1 o2 o3 o4 h1 h2 h3 h4 v1 v2 v3 v4]
  simp
  omega

/-! ## The mask, the network address and the broadcast address -/

/-- C1 (defect at prefix 0): for every address string, `calculateSubnetInfo` at
prefix 0 returns the mask 255.255.255.255, whose unsigned value is `2^32 - 1` and
not `2^32 - 2^(32-0) = 0`: the shift count `32 - 0` is reduced modulo 32, so the
all-ones value is shifted by 0 places. -/
theorem mask_at_cidr_zero (ip : List Char) :
    (calculateSubnetInfo ip (some 0)).mask = [255, 255, 255, 255]
      ∧ toUint (calculateSubnetInfo ip (some 0)).mask = 4294967295
      ∧ toUint (calculateSubnetInfo ip (some 0)).mask ≠ 4294967296 - 2 ^ (32 - 0) := by
  have h : (calculateSubnetInfo ip (some 0)).mask = [255, 255, 255, 255] := by
    show octets (maskInt (some 0)) = [255, 255, 255, 255]
    decide
  rw [h]
  decide

/-- C2 (defect at prefix 0): for the address 10.1.2.3 and prefix 0,
`calculateSubnetInfo` returns mask 255.255.255.255, network 10.1.2.3 and
broadcast 10.1.2.3 (not 0.0.0.0, 0.0.0.0 and 255.255.255.255), together with
totalHosts 4294967296 and usableHosts 4294967294. -/
theorem record_at_cidr_zero :
    (calculateSubnetInfo "10.1.2.3".toList (some 0)).mask = [255, 255, 255, 255]
      ∧ (calculateSubnetInfo "10.1.2.3".toList (some 0)).network = [10, 1, 2, 3]
      ∧ (calculateSubnetInfo "10.1.2.3".toList (some 0)).broadcast = [10, 1, 2, 3]
      ∧ (calculateSubnetInfo "10.1.2.3".toList (some 0)).totalHosts = JSNum.fin 4294967296
      ∧ (calculateSubnetInfo "10.1.2.3".toList (some 0)).usableHosts = JSNum.fin 4294967294 := by
  refine ⟨by decide, by decide, by decide, by decide, ?_⟩
  have e : Int.toNat 32 = 32 := rfl
  norm_num [calculateSubnetInfo, Math.pow, Math.max, JSNum.sub, JSNum.ofInt, e]

/-- C3: for every address with four octets in `[0, 255]` and every prefix in
`[0, 32]`, the returned network address has no host bit set and agrees with the
input address on the mask bits: on unsigned 32-bit values,
`network AND (NOT mask) = 0` and `network AND mask = ip AND mask`, for the mask of
the same record. -/
theorem network_zeroes_host_bits (ip : List Char) (a b c d p : Nat)
    (h : HasOctets ip a b c d) (_hp : p ≤ 32) :
    toUint (calculateSubnetInfo ip (some (p : Int))).network
        &&& (4294967295 - toUint (calculateSubnetInfo ip (some (p : Int))).mask) = 0
      ∧ toUint (calculateSubnetInfo ip (some (p : Int))).network
          &&& toUint (calculateSubnetInfo ip (some (p : Int))).mask
        = toUint [(a : Int), (b : Int), (c : Int), (d : Int)]
          &&& toUint (calculateSubnetInfo ip (some (p : Int))).mask := by
  rw [network_toUint, mask_toUint, toUint_quad, ← ipU_of_octets ip a b c d h]
  exact ⟨and_not_eq_zero _ _ (maskU_lt _), and_and_self _ _⟩

/-- Witness of C3 at 192.168.1.10/24. -/
theorem network_zeroes_host_bits_witness :
    HasOctets "192.168.1.10".toList 192 168 1 10 ∧ 24 ≤ 32
      ∧ toUint (calculateSubnetInfo "192.168.1.10".toList (some ((24 : Nat) : Int))).network
        &&& (4294967295
          - toUint (calculateSubnetInfo "192.168.1.10".toList (some ((24 : Nat) : Int))).mask) = 0 :=
  ⟨⟨by rfl, by decide, by decide, by decide, by decide⟩, by decide,
    (network_zeroes_host_bits "192.168.1.10".toList 192 168 1 10 24
      ⟨by rfl, by decide, by decide, by decide, by decide⟩ (by decide)).1⟩

/-- C4: for every address with four octets in `[0, 255]` and every prefix in
`[0, 32]`, the returned broadcast address has every host bit set and agrees with
the input address on the mask bits: on unsigned 32-bit values,
`broadcast AND (NOT mask) = NOT mask` and `broadcast AND mask = ip AND mask`, for
the mask of the same record. -/
theorem broadcast_sets_host_bits (ip : List Char) (a b c d p : Nat)
    (h : HasOctets ip a b c d) (_hp : p ≤ 32) :
    toUint (calculateSubnetInfo ip (some (p : Int))).broadcast
        &&& (4294967295 - toUint (calculateSubnetInfo ip (some (p : Int))).mask)
        = 4294967295 - toUint (calculateSubnetInfo ip (some (p : Int))).mask
      ∧ toUint (calculateSubnetInfo ip (some (p : Int))).broadcast
          &&& toUint (calculateSubnetInfo ip (some (p : Int))).mask
        = toUint [(a : Int), (b : Int), (c : Int), (d : Int)]
          &&& toUint (calculateSubnetInfo ip (some (p : Int))).mask := by
  rw [broadcast_toUint, mask_toUint, toUint_quad, ← ipU_of_octets ip a b c d h]
  exact ⟨or_not_and_not _ _ (maskU_lt _), or_not_and _ _ (maskU_lt _)⟩

/-- Witness of C4 at 192.168.1.10/24. -/
theorem broadcast_sets_host_bits_witness :
    HasOctets "192.168.1.10".toList 192 168 1 10 ∧ 24 ≤ 32
      ∧ toUint (calculateSubnetInfo "192.168.1.10".toList (some ((24 : Nat) : Int))).broadcast
          &&& toUint (calculateSubnetInfo "192.168.1.10".toList (some ((24 : Nat) : Int))).mask
        = toUint [((192 : Nat) : Int), ((168 : Nat) : Int), ((1 : Nat) : Int), ((10 : Nat) : Int)]
          &&& toUint (calculateSubnetInfo "192.168.1.10".toList (some ((24 : Nat) : Int))).mask :=
  ⟨⟨by rfl, by decide, by decide, by decide, by decide⟩, by decide,
    (broadcast_sets_host_bits "192.168.1.10".toList 192 168 1 10 24
      ⟨by rfl, by decide, by decide, by decide, by decide⟩ (by decide)).2⟩

/-- C5 as stated fails: for 192.168.1.10/24 the broadcast address is
192.168.1.255 and the mask 255.255.255.0, and `broadcast OR mask` is
255.255.255.255, which is not the broadcast address. -/
theorem broadcast_or_mask_counterexample :
    toUint (calculateSubnetInfo "192.168.1.10".toList (some 24)).broadcast
        ||| toUint (calculateSubnetInfo "192.168.1.10".toList (some 24)).mask
      ≠ toUint (calculateSubnetInfo "192.168.1.10".toList (some 24)).broadcast := by
  decide

/-- C5 amended: for every address with four octets in `[0, 255]` and every prefix
in `[0, 32]`, the broadcast address absorbs the wildcard (the complement of the
mask): on unsigned 32-bit values, `broadcast OR (NOT mask) = broadcast`. -/
theorem broadcast_or_wildcard (ip : List Char) (a b c d p : Nat)
    (_h : HasOctets ip a b c d) (_hp : p ≤ 32) :
    toUint (calculateSubnetInfo ip (some (p : Int))).broadcast
        ||| (4294967295 - toUint (calculateSubnetInfo ip (some (p : Int))).mask)
      = toUint (calculateSubnetInfo ip (some (p : Int))).broadcast := by
  rw [broadcast_toUint, mask_toUint]
  exact or_not_or_not _ _

/-- Witness of the amended C5 at 192.168.1.10/24. -/
theorem broadcast_or_wildcard_witness :
    HasOctets "192.168.1.10".toList 192 168 1 10 ∧ 24 ≤ 32
      ∧ toUint (calculateSubnetInfo "192.168.1.10".toList (some ((24 : Nat) : Int))).broadcast
          ||| (4294967295
            - toUint (calculateSubnetInfo "192.168.1.10".toList (some ((24 : Nat) : Int))).mask)
        = toUint (calculateSubnetInfo "192.168.1.10".toList (some ((24 : Nat) : Int))).broadcast :=
  ⟨⟨by rfl, by decide, by decide, by decide, by decide⟩, by decide,
    broadcast_or_wildcard "192.168.1.10".toList 192 168 1 10 24
      ⟨by rfl, by decide, by decide, by decide, by decide⟩ (by decide)⟩

/-! ## Host counts, the parser, and the prefix 32 -/

/-- C6: for every prefix `p` in `[0, 32]`, `totalHosts` is exactly `2^(32-p)`
and `usableHosts` is `max(0, totalHosts - 2)`: `0` at the prefixes 31 and 32,
`totalHosts - 2` at every other prefix. -/
theorem host_counts (ip : List Char) (p : Nat) (hp : p ≤ 32) :
    (calculateSubnetInfo ip (some (p : Int))).totalHosts = JSNum.fin ((2 ^ (32 - p) : Nat) : ℚ)
      ∧ (calculateSubnetInfo ip (some (p : Int))).usableHosts
        = JSNum.fin (max 0 (((2 ^ (32 - p) : Nat) : ℚ) - 2))
      ∧ (31 ≤ p → (calculateSubnetInfo ip (some (p : Int))).usableHosts = JSNum.fin 0)
      ∧ (p ≤ 30 → (calculateSubnetInfo ip (some (p : Int))).usableHosts
        = JSNum.fin ((2 ^ (32 - p) - 2 : Nat) : ℚ)) := by
  have e : (32 - (p : Int)).toNat = 32 - p := by omega
  have hT : (calculateSubnetInfo ip (some (p : Int))).totalHosts
      = JSNum.fin ((2 ^ (32 - p) : Nat) : ℚ) := by
    simp only [calculateSubnetInfo, Option.map_some', Math.pow]
    rw [if_pos (by omega), e]
  have hU : (calculateSubnetInfo ip (some (p : Int))).usableHosts
      = JSNum.fin (max 0 (((2 ^ (32 - p) : Nat) : ℚ) - 2)) := by
    have h := hT
    simp only [calculateSubnetInfo] at h ⊢
    rw [h]
    simp only [JSNum.ofInt, JSNum.sub, Math.max, max_def]
    norm_num
  refine ⟨hT, hU, ?_, ?_⟩
  · intro h31
    rw [hU]
    interval_cases p <;> norm_num
  · intro h30
    rw [hU]
    interval_cases p <;> norm_num

/-- Witness of C6 at prefix 31. -/
theorem host_counts_witness :
    31 ≤ 32 ∧ (calculateSubnetInfo "10.0.0.5".toList (some ((31 : Nat) : Int))).totalHosts
      = JSNum.fin ((2 ^ (32 - 31) : Nat) : ℚ)
      ∧ (calculateSubnetInfo "10.0.0.5".toList (some ((31 : Nat) : Int))).usableHosts
        = JSNum.fin 0 :=
  ⟨by decide, (host_counts "10.0.0.5".toList 31 (by decide)).1,
    (host_counts "10.0.0.5".toList 31 (by decide)).2.2.1 (by decide)⟩

/-- C7 (defect): `isValidIP` accepts the address `1a.2.3.4`, whose first part is
not a clean integer, because `parseInt` reads the leading `1` and ignores the
rest; `parseInput` therefore succeeds on `1a.2.3.4/24`, and the first octet that
`calculateSubnetInfo` then derives with `Number` is `NaN`. -/
theorem isValidIP_accepts_trailing_garbage :
    isValidIP "1a.2.3.4".toList = true
      ∧ parseInput "1a.2.3.4/24".toList = Except.ok ("1a.2.3.4".toList, some 24)
      ∧ (calculateSubnetInfo "1a.2.3.4".toList (some 24)).ip
        = [JSNum.nan, JSNum.fin 2, JSNum.fin 3, JSNum.fin 4] :=
  ⟨by decide, by rfl, by decide⟩

/-- C8 (defect): `parseInput` succeeds on `1.2.3.4/abc` and on `1.2.3.4/`, and
returns the CIDR value `NaN`, which is no integer in `[0, 32]`: `parseInt` yields
`NaN` and both range comparisons with `NaN` are false. -/
theorem parseInput_accepts_nan_cidr :
    parseInput "1.2.3.4/abc".toList = Except.ok ("1.2.3.4".toList, none)
      ∧ parseInput "1.2.3.4/".toList = Except.ok ("1.2.3.4".toList, none) :=
  ⟨by rfl, by rfl⟩

/-- C9: for every input made of four strings of decimal digits with values in
`[0, 255]` joined by dots, a slash, and a string of decimal digits with value in
`[0, 32]`, `parseInput` succeeds with that address and prefix, and in the record
that `calculateSubnetInfo` returns for them every octet of network, broadcast,
mask, firstUsable and lastUsable is an integer in `[0, 255]`. -/
theorem parse_then_calculate (o1 o2 o3 o4 p : List Char) (h1 : IsDecimal o1)
    (h2 : IsDecimal o2) (h3 : IsDecimal o3) (h4 : IsDecimal o4) (hp : IsDecimal p)
    (v1 : digitsValue 10 o1 ≤ 255) (v2 : digitsValue 10 o2 ≤ 255)
    (v3 : digitsValue 10 o3 ≤ 255) (v4 : digitsValue 10 o4 ≤ 255)
    (vp : digitsValue 10 p ≤ 32) :
    parseInput (dotted o1 o2 o3 o4 ++ '/' :: p)
        = Except.ok (dotted o1 o2 o3 o4, some ((digitsValue 10 p : Nat) : Int))
      ∧ ∀ o : Int,
        o ∈ (calculateSubnetInfo (dotted o1 o2 o3 o4) (some ((digitsValue 10 p : Nat) : Int))).network
          ++ (calculateSubnetInfo (dotted o1 o2 o3 o4) (some ((digitsValue 10 p : Nat) : Int))).broadcast
          ++ (calculateSubnetInfo (dotted o1 o2 o3 o4) (some ((digitsValue 10 p : Nat) : Int))).mask
          ++ (calculateSubnetInfo (dotted o1 o2 o3 o4) (some ((digitsValue 10 p : Nat) : Int))).firstUsable
          ++ (calculateSubnetInfo (dotted o1 o2 o3 o4) (some ((digitsValue 10 p : Nat) : Int))).lastUsable
        → 0 ≤ o ∧ o ≤ 255 := by
  refine ⟨parseInput_dotted o1 o2 o3 o4 p h1 h2 h3 h4 hp v1 v2 v3 v4 vp, ?_⟩
  intro o ho
  simp only [calculateSubnetInfo, List.mem_append] at ho
  rcases ho with (((ho | ho) | ho) | ho) | ho <;> exact octets_bounds _ o ho

/-- Witness of C9 at the input 192.168.1.10/24. -/
theorem parse_then_calculate_witness :
    parseInput (dotted "192".toList "168".toList "1".toList "10".toList ++ '/' :: "24".toList)
      = Except.ok (dotted "192".toList "168".toList "1".toList "10".toList,
          some ((digitsValue 10 "24".toList : Nat) : Int)) :=
  (parse_then_calculate "192".toList "168".toList "1".toList "10".toList "24".toList
    ⟨by decide, by decide⟩ ⟨by decide, by decide⟩ ⟨by decide, by decide⟩
    ⟨by decide, by decide⟩ ⟨by decide, by decide⟩ (by decide) (by decide) (by decide)
    (by decide) (by decide)).1

/-- C10: for every address with four octets in `[0, 255]`, `calculateSubnetInfo`
at prefix 32 returns mask 255.255.255.255, network and broadcast both equal to
the input address octet for octet, totalHosts 1 and usableHosts 0. -/
theorem record_at_cidr_32 (ip : List Char) (a b c d : Nat) (h : HasOctets ip a b c d) :
    (calculateSubnetInfo ip (some 32)).mask = [255, 255, 255, 255]
      ∧ (calculateSubnetInfo ip (some 32)).network = [(a : Int), (b : Int), (c : Int), (d : Int)]
      ∧ (calculateSubnetInfo ip (some 32)).broadcast
        = [(a : Int), (b : Int), (c : Int), (d : Int)]
      ∧ (calculateSubnetInfo ip (some 32)).totalHosts = JSNum.fin 1
      ∧ (calculateSubnetInfo ip (some 32)).usableHosts = JSNum.fin 0 := by
  have hm : maskU (some 32) = 2 ^ 32 - 1 := by decide
  have hip := ipU_of_octets ip a b c d h
  obtain ⟨-, ha, hb, hc, hd⟩ := h
  have hlt : ipU ip < 4294967296 := by omega
  have hand : ipU ip &&& maskU (some 32) = ipU ip := by
    rw [hm, Nat.and_pow_two_sub_one_eq_mod]
    exact Nat.mod_eq_of_lt hlt
  have hoct : octets ((ipU ip : Nat) : Int) = [(a : Int), (b : Int), (c : Int), (d : Int)] := by
    rw [octets_natCast _ hlt, hip]
    have e1 : (a * 16777216 + b * 65536 + c * 256 + d) / 16777216 % 256 = a := by omega
    have e2 : (a * 16777216 + b * 65536 + c * 256 + d) / 65536 % 256 = b := by omega
    have e3 : (a * 16777216 + b * 65536 + c * 256 + d) / 256 % 256 = c := by omega
    have e4 : (a * 16777216 + b * 65536 + c * 256 + d) % 256 = d := by omega
    rw [e1, e2, e3, e4]
  refine ⟨?_, ?_, ?_, ?_, ?_⟩
  · show octets (maskInt (some 32)) = [255, 255, 255, 255]
    decide
  · rw [network_eq, hand, hoct]
  · rw [broadcast_eq, hand, hm]
    simpa using hoct
  · have e : Int.toNat 0 = 0 := rfl
    norm_num [calculateSubnetInfo, Math.pow, e]
  · have e : Int.toNat 0 = 0 := rfl
    norm_num [calculateSubnetInfo, Math.pow, Math.max, JSNum.sub, JSNum.ofInt, e]

/-- Witness of C10 at 192.168.1.10/32. -/
theorem record_at_cidr_32_witness :
    HasOctets "192.168.1.10".toList 192 168 1 10
      ∧ (calculateSubnetInfo "192.168.1.10".toList (some 32)).network
        = [((192 : Nat) : Int), ((168 : Nat) : Int), ((1 : Nat) : Int), ((10 : Nat) : Int)] :=
  ⟨⟨by rfl, by decide, by decide, by decide, by decide⟩,
    (record_at_cidr_32 "192.168.1.10".toList 192 168 1 10
      ⟨by rfl, by decide, by decide, by decide, by decide⟩).2.1⟩

/-! ## Contiguous masks -/

theorem ipU_lt (ip : List Char) : ipU ip < 4294967296 := ToUint32_lt _

theorem and_high_mask (x k : Nat) (hk : k ≤ 32) (hx : x < 4294967296) :
    x &&& (4294967296 - 2 ^ k) = 2 ^ k * (x / 2 ^ k) := by
  have hpos : 0 < 2 ^ k := Nat.two_pow_pos k
  have hle : 2 ^ k ≤ 2 ^ 32 := Nat.pow_le_pow_right (by norm_num) hk
  have hm : 2 ^ k - 1 < 2 ^ 32 := by omega
  apply Nat.eq_of_testBit_eq
  intro i
  rw [show 4294967296 - 2 ^ k = 2 ^ 32 - ((2 ^ k - 1) + 1) by omega, Nat.testBit_and,
    Nat.testBit_two_pow_sub_succ hm, Nat.testBit_two_pow_sub_one, Nat.testBit_mul_pow_two,
    ← Nat.shiftRight_eq_div_pow, Nat.testBit_shiftRight]
  by_cases hik : k ≤ i
  · rw [show k + (i - k) = i by omega]
    by_cases hi : i < 32
    · simp [hik, hi, Nat.not_lt.mpr hik]
    · have h2 : x < 2 ^ i :=
        lt_of_lt_of_le hx (Nat.pow_le_pow_right (by norm_num : 0 < 2) (Nat.not_lt.mp hi))
      simp [Nat.testBit_lt_two_pow h2]
  · have : i < k := Nat.not_le.mp hik
    simp [this, hik]

theorem network_of_pos (ip : List Char) (p : Nat) (h1 : 1 ≤ p) (hp : p ≤ 32) :
    ipU ip &&& maskU (some (p : Int)) = 2 ^ (32 - p) * (ipU ip / 2 ^ (32 - p)) := by
  rw [maskU_of_pos p h1 hp]
  exact and_high_mask _ _ (by omega) (ipU_lt ip)

theorem wildcard_of_pos (p : Nat) (h1 : 1 ≤ p) (hp : p ≤ 32) :
    4294967295 - maskU (some (p : Int)) = 2 ^ (32 - p) - 1 := by
  have hle : 2 ^ (32 - p) ≤ 2 ^ 32 := Nat.pow_le_pow_right (by norm_num) (by omega)
  rw [maskU_of_pos p h1 hp]
  omega

theorem broadcast_of_pos (ip : List Char) (p : Nat) (h1 : 1 ≤ p) (hp : p ≤ 32) :
    (ipU ip &&& maskU (some (p : Int))) ||| (4294967295 - maskU (some (p : Int)))
      = 2 ^ (32 - p) * (ipU ip / 2 ^ (32 - p)) + (2 ^ (32 - p) - 1) := by
  have hpos : 0 < 2 ^ (32 - p) := Nat.two_pow_pos _
  rw [network_of_pos ip p h1 hp, wildcard_of_pos p h1 hp]
  exact (Nat.mul_add_lt_is_or (by omega) _).symm

theorem firstUsable_eq (ip : List Char) (cidr : Option Int) :
    (calculateSubnetInfo ip cidr).firstUsable
      = octets (((ipU ip &&& maskU cidr : Nat) : Int) + 1) := by
  unfold ipU maskU
  simp only [calculateSubnetInfo, ushr_zero, ToUint32_band]

theorem lastUsable_eq (ip : List Char) (cidr : Option Int) :
    (calculateSubnetInfo ip cidr).lastUsable
      = octets ((((ipU ip &&& maskU cidr) ||| (4294967295 - maskU cidr) : Nat) : Int) - 1) := by
  have h1 : ipU ip &&& maskU cidr < 4294967296 :=
    lt_of_le_of_lt Nat.and_le_right (maskU_lt _)
  have h2 : 4294967295 - maskU cidr < 4294967296 := by omega
  unfold ipU maskU at h1 h2 ⊢
  simp only [calculateSubnetInfo, ushr_zero, ToUint32_band, ToUint32_bor, ToUint32_bnot]
  rw [ToUint32_natCast _ h1, ToUint32_natCast _ h2]

theorem toUint_octets_succ (n : Nat) :
    toUint (octets ((n : Int) + 1)) = (n + 1) % 4294967296 := by
  rw [toUint_octets, ToUint32_ofInt]
  omega

theorem toUint_octets_pred (n : Nat) :
    toUint (octets ((n : Int) - 1)) = (n + 4294967295) % 4294967296 := by
  rw [toUint_octets, ToUint32_ofInt]
  omega

theorem int_succ_mod (n : Nat) :
    (((n : Int) + 1) % 4294967296).toNat = (n + 1) % 4294967296 := by
  omega

theorem int_pred_mod (n : Nat) :
    (((n : Int) - 1) % 4294967296).toNat = (n + 4294967295) % 4294967296 := by
  omega

theorem octets_bigEndian (x : Int) : octets x = bigEndian (ToUint32 (JSNum.ofInt x)) :=
  octets_eq x

theorem ipInt_value (a b c d : Nat) (ha : a ≤ 255) (hb : b ≤ 255) (hc : c ≤ 255)
    (hd : d ≤ 255) :
    ipInt [JSNum.ofInt a, JSNum.ofInt b, JSNum.ofInt c, JSNum.ofInt d]
      = asInt32 (a * 16777216 + b * 65536 + c * 256 + d) := by
  have hw : ∃ w, w < 4294967296
      ∧ ipInt [JSNum.ofInt a, JSNum.ofInt b, JSNum.ofInt c, JSNum.ofInt d] = asInt32 w :=
    ⟨_, Nat.or_lt_two_pow (n := 32) (ToUint32_lt _) (ToUint32_lt _), rfl⟩
  obtain ⟨w, hlt, e⟩ := hw
  have h := ipInt_octets a b c d ha hb hc hd
  rw [e, ToUint32_asInt32 w hlt] at h
  rw [e, h]

theorem le_and_or_not (x m : Nat) (hx : x < 4294967296) (hm : m < 4294967296) :
    x ≤ (x &&& m) ||| (4294967295 - m) := by
  apply Nat.le_of_testBit
  intro i hi
  have h32 : i < 32 := by
    by_contra hge
    have h2 : x < 2 ^ i :=
      lt_of_lt_of_le hx (Nat.pow_le_pow_right (by norm_num : 0 < 2) (Nat.not_lt.mp hge))
    rw [Nat.testBit_lt_two_pow h2] at hi
    exact absurd hi (by simp)
  simp only [Nat.testBit_or, Nat.testBit_and, testBit_wildcard m hm, hi]
  cases m.testBit i <;> simp [h32]

theorem and_eq_of_between (x y p : Nat) (hp : p ≤ 32) (hx : x < 4294967296)
    (hy : y < 4294967296) (hlo : x &&& maskU (some (p : Int)) ≤ y)
    (hhi : y ≤ (x &&& maskU (some (p : Int))) ||| (4294967295 - maskU (some (p : Int)))) :
    y &&& maskU (some (p : Int)) = x &&& maskU (some (p : Int)) := by
  rcases Nat.eq_zero_or_pos p with h0 | h1
  · subst h0
    have hm : maskU (some ((0 : Nat) : Int)) = 2 ^ 32 - 1 := by decide
    rw [hm] at hlo hhi ⊢
    rw [Nat.and_pow_two_sub_one_eq_mod] at hlo hhi ⊢
    rw [Nat.and_pow_two_sub_one_eq_mod]
    norm_num at hlo hhi ⊢
    omega
  · have hpos : 0 < 2 ^ (32 - p) := Nat.two_pow_pos _
    have hw := wildcard_of_pos p h1 hp
    have hn := and_high_mask x (32 - p) (by omega) hx
    have hny := and_high_mask y (32 - p) (by omega) hy
    rw [maskU_of_pos p h1 hp] at hlo hhi hw ⊢
    rw [hn] at hlo hhi ⊢
    rw [hny, hw, ← Nat.mul_add_lt_is_or (by omega)] at *
    have hq : y / 2 ^ (32 - p) = x / 2 ^ (32 - p) := by
      apply Nat.div_eq_of_lt_le
      · rw [Nat.mul_comm]; exact hlo
      · rw [Nat.add_mul, Nat.mul_comm]; omega
    rw [hq]

theorem sameSubnet_of_and_eq (ipA ipB : List Char) (cidr : Option Int)
    (h : ipU ipB &&& maskU cidr = ipU ipA &&& maskU cidr) :
    SameSubnet (calculateSubnetInfo ipB cidr) (calculateSubnetInfo ipA cidr) := by
  refine ⟨rfl, ?_, ?_, ?_, ?_, rfl, rfl⟩
  · rw [network_eq, network_eq, h]
  · rw [broadcast_eq, broadcast_eq, h]
  · rw [firstUsable_eq, firstUsable_eq, h]
  · rw [lastUsable_eq, lastUsable_eq, h]

theorem usableHosts_of_le_30 (ip : List Char) (p : Nat) (hp : p ≤ 30) :
    (calculateSubnetInfo ip (some (p : Int))).usableHosts
      = JSNum.fin ((2 ^ (32 - p) - 2 : Nat) : ℚ) := by
  have e : (32 - (p : Int)).toNat = 32 - p := by omega
  have h4 : 2 ^ 2 ≤ 2 ^ (32 - p) := Nat.pow_le_pow_right (by norm_num) (by omega)
  have hq : (2 : ℚ) ≤ ((2 ^ (32 - p) : Nat) : ℚ) := by
    have : (2 : Nat) ≤ 2 ^ (32 - p) := by omega
    exact_mod_cast this
  simp only [calculateSubnetInfo, Option.map_some', Math.pow]
  rw [if_pos (by omega), e]
  simp only [JSNum.ofInt, JSNum.sub, Math.max]
  rw [Nat.cast_sub (by omega)]
  norm_num
  intro hneg
  push_cast at hq
  linarith

/-! ## White space around the input -/

theorem ws_ne_slash (w : List Char) (h : ∀ c ∈ w, isWhiteSpace c = true) : '/' ∉ w := by
  intro hm
  have := h _ hm
  revert this
  decide

theorem split_ne_nil (s : List Char) (c : Char) : split s c ≠ [] := by
  cases s with
  | nil => simp [split]
  | cons x xs =>
    unfold split
    split
    · simp
    · split <;> simp

theorem split_prepend (c : Char) (u t p : List Char) (ps : List (List Char)) (h : c ∉ u)
    (e : split t c = p :: ps) : split (u ++ t) c = (u ++ p) :: ps := by
  induction u with
  | nil => simpa using e
  | cons x xs ih =>
    have hx : x ≠ c := fun e => h (by simp [e])
    have hxs : c ∉ xs := fun e => h (by simp [e])
    simp [split, hx, ih hxs]

theorem split_append_last (c : Char) (t v : List Char) (h : c ∉ v) :
    ∃ init last, split t c = init ++ [last] ∧ split (t ++ v) c = init ++ [last ++ v] := by
  induction t with
  | nil => exact ⟨[], [], by simp [split], by simp [split_of_not_mem c v h]⟩
  | cons x xs ih =>
    obtain ⟨init, last, e1, e2⟩ := ih
    by_cases hx : x = c
    · exact ⟨[] :: init, last, by simp [split, hx, e1], by simp [split, hx, e2]⟩
    · cases init with
      | nil => exact ⟨[], x :: last, by simp [split, hx, e1], by simp [split, hx, e2]⟩
      | cons i is =>
        exact ⟨(x :: i) :: is, last, by simp [split, hx, e1], by simp [split, hx, e2]⟩

theorem trim_prepend_ws (u p : List Char) (h : ∀ c ∈ u, isWhiteSpace c = true) :
    trim (u ++ p) = trim p := by
  unfold trim
  rw [List.dropWhile_append_of_pos h]

theorem trim_append_ws (q v : List Char) (h : ∀ c ∈ v, isWhiteSpace c = true) :
    trim (q ++ v) = trim q := by
  unfold trim
  rw [List.dropWhile_append]
  split
  · next hq =>
    have hq2 : List.dropWhile isWhiteSpace q = [] := by simpa using hq
    have hv : List.dropWhile isWhiteSpace v = [] := List.dropWhile_eq_nil_iff.mpr h
    rw [hq2, hv]
  · rw [List.reverse_append, List.dropWhile_append_of_pos (by simpa using h)]

theorem trim_decompose (s : List Char) :
    ∃ w0 w3, (∀ c ∈ w0, isWhiteSpace c = true) ∧ (∀ c ∈ w3, isWhiteSpace c = true)
      ∧ s = w0 ++ trim s ++ w3 := by
  refine ⟨s.takeWhile isWhiteSpace,
    (((s.dropWhile isWhiteSpace).reverse).takeWhile isWhiteSpace).reverse,
    fun c hc => List.mem_takeWhile_imp hc,
    fun c hc => List.mem_takeWhile_imp (List.mem_reverse.mp hc), ?_⟩
  unfold trim
  rw [List.append_assoc, ← List.reverse_append, List.takeWhile_append_dropWhile,
    List.reverse_reverse, List.takeWhile_append_dropWhile]

theorem parseInput_surround (u t v : List Char) (hu : ∀ c ∈ u, isWhiteSpace c = true)
    (hv : ∀ c ∈ v, isWhiteSpace c = true) : parseInput (u ++ (t ++ v)) = parseInput t := by
  obtain ⟨init, last, e1, e2⟩ := split_append_last '/' t v (ws_ne_slash v hv)
  cases init with
  | nil =>
    simp only [List.nil_append] at e1 e2
    have e3 := split_prepend '/' u (t ++ v) _ _ (ws_ne_slash u hu) e2
    simp [parseInput, e1, e3]
  | cons p rest =>
    cases rest with
    | nil =>
      simp only [List.cons_append, List.nil_append] at e1 e2
      have e3 := split_prepend '/' u (t ++ v) _ _ (ws_ne_slash u hu) e2
      simp only [parseInput, e1, e3, List.length_cons, List.length_nil, List.getD_cons_zero,
        List.getD_cons_succ, trim_prepend_ws u p hu, trim_append_ws last v hv]
    | cons q rest2 =>
      simp only [List.cons_append] at e1 e2
      have e3 := split_prepend '/' u (t ++ v) _ _ (ws_ne_slash u hu) e2
      simp [parseInput, e1, e3]

theorem isValidIP_true (ip : List Char) (h : isValidIP ip = true) :
    (split ip '.').length = 4
      ∧ ∀ part ∈ split ip '.', ∃ v, parseInt part = some v ∧ 0 ≤ v ∧ v ≤ 255 := by
  unfold isValidIP at h
  by_cases hl : (split ip '.').length = 4
  · refine ⟨hl, ?_⟩
    simp only [hl, ne_eq, not_true_eq_false, if_false, List.all_eq_true] at h
    intro part hp
    have hpart := h part hp
    cases hv : parseInt part with
    | none => simp [hv] at hpart
    | some v =>
      simp only [hv, Bool.and_eq_true, decide_eq_true_eq] at hpart
      exact ⟨v, rfl, hpart⟩
  · simp [hl] at h

theorem ipParts_network (ip ipN : List Char) (cidr : Option Int)
    (hN : (split ipN '.').map Number = (calculateSubnetInfo ip cidr).network.map JSNum.ofInt) :
    ipU ipN = ipU ip &&& maskU cidr := by
  have hlt : ipU ip &&& maskU cidr < 4294967296 :=
    lt_of_le_of_lt Nat.and_le_right (maskU_lt _)
  rw [network_eq, octets_natCast _ hlt] at hN
  simp only [List.map_cons, List.map_nil] at hN
  have h := ipU_of_octets ipN _ _ _ _
    ⟨hN, by omega, by omega, by omega, by omega⟩
  rw [h]
  omega

/-! ## Round trip and usable range -/

/-- C11: for all octets `a`, `b`, `c`, `d` in `[0, 255]`, packing them as
`calculateSubnetInfo` does, `(a << 24) | (b << 16) | (c << 8) | d`, and unpacking
the packed value with the shift-and-mask expressions of the code returns exactly
`[a, b, c, d]`; the packed value is the signed reading of
`a * 2^24 + b * 2^16 + c * 2^8 + d`, which is negative when `a ≥ 128`. -/
theorem pack_unpack_roundtrip (a b c d : Nat) (ha : a ≤ 255) (hb : b ≤ 255) (hc : c ≤ 255)
    (hd : d ≤ 255) :
    octets (ipInt [JSNum.ofInt a, JSNum.ofInt b, JSNum.ofInt c, JSNum.ofInt d])
        = [(a : Int), (b : Int), (c : Int), (d : Int)]
      ∧ (128 ≤ a →
        ipInt [JSNum.ofInt a, JSNum.ofInt b, JSNum.ofInt c, JSNum.ofInt d] < 0) := by
  constructor
  · rw [octets_eq, ipInt_octets a b c d ha hb hc hd]
    have e1 : (a * 16777216 + b * 65536 + c * 256 + d) / 16777216 % 256 = a := by omega
    have e2 : (a * 16777216 + b * 65536 + c * 256 + d) / 65536 % 256 = b := by omega
    have e3 : (a * 16777216 + b * 65536 + c * 256 + d) / 256 % 256 = c := by omega
    have e4 : (a * 16777216 + b * 65536 + c * 256 + d) % 256 = d := by omega
    rw [e1, e2, e3, e4]
  · intro h128
    rw [ipInt_value a b c d ha hb hc hd]
    unfold asInt32
    split <;> omega

/-- Witness of C11 at the octets 192, 168, 1, 10, whose packed value is negative. -/
theorem pack_unpack_roundtrip_witness :
    octets (ipInt [JSNum.ofInt ((192 : Nat) : Int), JSNum.ofInt ((168 : Nat) : Int),
        JSNum.ofInt ((1 : Nat) : Int), JSNum.ofInt ((10 : Nat) : Int)])
        = [((192 : Nat) : Int), ((168 : Nat) : Int), ((1 : Nat) : Int), ((10 : Nat) : Int)]
      ∧ ipInt [JSNum.ofInt ((192 : Nat) : Int), JSNum.ofInt ((168 : Nat) : Int),
        JSNum.ofInt ((1 : Nat) : Int), JSNum.ofInt ((10 : Nat) : Int)] < 0 :=
  ⟨(pack_unpack_roundtrip 192 168 1 10 (by decide) (by decide) (by decide) (by decide)).1,
    (pack_unpack_roundtrip 192 168 1 10 (by decide) (by decide) (by decide) (by decide)).2
      (by decide)⟩

/-- The usable range for the prefixes 1 to 30: it lies strictly between network
and broadcast, starts at network + 1, ends at broadcast - 1 and has `usableHosts`
addresses. -/
theorem usable_range_of_pos (ip : List Char) (p : Nat) (h1 : 1 ≤ p) (hp : p ≤ 30) :
    toUint (calculateSubnetInfo ip (some (p : Int))).network
        < toUint (calculateSubnetInfo ip (some (p : Int))).firstUsable
      ∧ toUint (calculateSubnetInfo ip (some (p : Int))).firstUsable
        ≤ toUint (calculateSubnetInfo ip (some (p : Int))).lastUsable
      ∧ toUint (calculateSubnetInfo ip (some (p : Int))).lastUsable
        < toUint (calculateSubnetInfo ip (some (p : Int))).broadcast
      ∧ toUint (calculateSubnetInfo ip (some (p : Int))).firstUsable
        = toUint (calculateSubnetInfo ip (some (p : Int))).network + 1
      ∧ toUint (calculateSubnetInfo ip (some (p : Int))).lastUsable
        = toUint (calculateSubnetInfo ip (some (p : Int))).broadcast - 1
      ∧ (calculateSubnetInfo ip (some (p : Int))).usableHosts
        = JSNum.fin ((toUint (calculateSubnetInfo ip (some (p : Int))).lastUsable
          - toUint (calculateSubnetInfo ip (some (p : Int))).firstUsable + 1 : Nat) : ℚ) := by
  have h4 : 2 ^ 2 ≤ 2 ^ (32 - p) := Nat.pow_le_pow_right (by norm_num) (by omega)
  have hb := broadcast_of_pos ip p h1 (by omega)
  have hn := network_of_pos ip p h1 (by omega)
  have hblt : (ipU ip &&& maskU (some (p : Int))) ||| (4294967295 - maskU (some (p : Int)))
      < 4294967296 :=
    Nat.or_lt_two_pow (n := 32) (lt_of_le_of_lt Nat.and_le_right (maskU_lt _)) (by omega)
  rw [usableHosts_of_le_30 ip p hp, network_toUint, firstUsable_eq, lastUsable_eq,
    toUint_octets_succ, toUint_octets_pred, broadcast_toUint]
  rw [hb] at hblt ⊢
  rw [hn]
  generalize 2 ^ (32 - p) * (ipU ip / 2 ^ (32 - p)) = n at *
  generalize 2 ^ (32 - p) = K at *
  have e1 : (n + 1) % 4294967296 = n + 1 := by omega
  have e2 : (n + (K - 1) + 4294967295) % 4294967296 = n + (K - 1) - 1 := by omega
  rw [e1, e2]
  have e3 : K - 2 = n + (K - 1) - 1 - (n + 1) + 1 := by omega
  rw [← e3]
  exact ⟨by omega, by omega, by omega, rfl, rfl, rfl⟩

/-- C12 (defect at prefix 0): for 10.1.2.3 and prefix 0, `calculateSubnetInfo`
returns network 10.1.2.3, broadcast 10.1.2.3, firstUsable 10.1.2.4 and lastUsable
10.1.2.2 with usableHosts 4294967294: firstUsable is above lastUsable, so the
usable range is empty and does not have `usableHosts` addresses. -/
theorem usable_range_at_cidr_zero :
    (calculateSubnetInfo "10.1.2.3".toList (some 0)).network = [10, 1, 2, 3]
      ∧ (calculateSubnetInfo "10.1.2.3".toList (some 0)).broadcast = [10, 1, 2, 3]
      ∧ (calculateSubnetInfo "10.1.2.3".toList (some 0)).firstUsable = [10, 1, 2, 4]
      ∧ (calculateSubnetInfo "10.1.2.3".toList (some 0)).lastUsable = [10, 1, 2, 2]
      ∧ (calculateSubnetInfo "10.1.2.3".toList (some 0)).usableHosts = JSNum.fin 4294967294
      ∧ toUint (calculateSubnetInfo "10.1.2.3".toList (some 0)).firstUsable
        = toUint (calculateSubnetInfo "10.1.2.3".toList (some 0)).lastUsable + 2
      ∧ ¬ (toUint (calculateSubnetInfo "10.1.2.3".toList (some 0)).firstUsable
        ≤ toUint (calculateSubnetInfo "10.1.2.3".toList (some 0)).lastUsable) := by
  have e : Int.toNat 32 = 32 := rfl
  refine ⟨by decide, by decide, by decide, by decide, ?_, by decide, by decide⟩
  norm_num [calculateSubnetInfo, Math.pow, Math.max, JSNum.sub, JSNum.ofInt, e]

/-- C13: the two worked examples hold end to end.  The input 192.168.1.10/24
parses to that address and prefix 24 and yields network 192.168.1.0, broadcast
192.168.1.255, mask 255.255.255.0, firstUsable 192.168.1.1, lastUsable
192.168.1.254, totalHosts 256, usableHosts 254; the input 10.0.0.5/30 parses to
that address and prefix 30 and yields network 10.0.0.4, broadcast 10.0.0.7,
firstUsable 10.0.0.5, lastUsable 10.0.0.6, totalHosts 4, usableHosts 2. -/
theorem worked_examples :
    (parseInput "192.168.1.10/24".toList = Except.ok ("192.168.1.10".toList, some 24)
      ∧ (calculateSubnetInfo "192.168.1.10".toList (some 24)).network = [192, 168, 1, 0]
      ∧ (calculateSubnetInfo "192.168.1.10".toList (some 24)).broadcast = [192, 168, 1, 255]
      ∧ (calculateSubnetInfo "192.168.1.10".toList (some 24)).mask = [255, 255, 255, 0]
      ∧ (calculateSubnetInfo "192.168.1.10".toList (some 24)).firstUsable = [192, 168, 1, 1]
      ∧ (calculateSubnetInfo "192.168.1.10".toList (some 24)).lastUsable = [192, 168, 1, 254]
      ∧ (calculateSubnetInfo "192.168.1.10".toList (some 24)).totalHosts = JSNum.fin 256
      ∧ (calculateSubnetInfo "192.168.1.10".toList (some 24)).usableHosts = JSNum.fin 254)
    ∧ (parseInput "10.0.0.5/30".toList = Except.ok ("10.0.0.5".toList, some 30)
      ∧ (calculateSubnetInfo "10.0.0.5".toList (some 30)).network = [10, 0, 0, 4]
      ∧ (calculateSubnetInfo "10.0.0.5".toList (some 30)).broadcast = [10, 0, 0, 7]
      ∧ (calculateSubnetInfo "10.0.0.5".toList (some 30)).firstUsable = [10, 0, 0, 5]
      ∧ (calculateSubnetInfo "10.0.0.5".toList (some 30)).lastUsable = [10, 0, 0, 6]
      ∧ (calculateSubnetInfo "10.0.0.5".toList (some 30)).totalHosts = JSNum.fin 4
      ∧ (calculateSubnetInfo "10.0.0.5".toList (some 30)).usableHosts = JSNum.fin 2) := by
  have e8 : Int.toNat 8 = 8 := rfl
  have e2 : Int.toNat 2 = 2 := rfl
  refine ⟨⟨by rfl, by decide, by decide, by decide, by decide, by decide, by decide, ?_⟩,
    ⟨by rfl, by decide, by decide, by decide, by decide, by decide, ?_⟩⟩
  · norm_num [calculateSubnetInfo, Math.pow, Math.max, JSNum.sub, JSNum.ofInt, e8]
  · norm_num [calculateSubnetInfo, Math.pow, Math.max, JSNum.sub, JSNum.ofInt, e2]

/-- C16: `calculateSubnetInfo` lets the usable range wrap, without clamping.  For
every address with octets in `[0, 255]` and every prefix in `[0, 32]`,
firstUsable is the big-endian unpacking of `(network + 1) mod 2^32` and
lastUsable that of `(broadcast - 1) mod 2^32`; at prefix 31 firstUsable equals
broadcast and lastUsable equals network; at prefix 32 firstUsable is the input
address plus one and lastUsable the input address minus one, modulo `2^32`; so
255.255.255.255/32 has firstUsable 0.0.0.0 and 0.0.0.0/32 has lastUsable
255.255.255.255. -/
theorem usable_range_wraps (ip : List Char) (a b c d p : Nat) (h : HasOctets ip a b c d)
    (hp : p ≤ 32) :
    (calculateSubnetInfo ip (some (p : Int))).firstUsable
        = bigEndian ((toUint (calculateSubnetInfo ip (some (p : Int))).network + 1)
          % 4294967296)
      ∧ (calculateSubnetInfo ip (some (p : Int))).lastUsable
        = bigEndian ((toUint (calculateSubnetInfo ip (some (p : Int))).broadcast + 4294967295)
          % 4294967296)
      ∧ (p = 31 →
        (calculateSubnetInfo ip (some (p : Int))).firstUsable
            = (calculateSubnetInfo ip (some (p : Int))).broadcast
          ∧ (calculateSubnetInfo ip (some (p : Int))).lastUsable
            = (calculateSubnetInfo ip (some (p : Int))).network)
      ∧ (p = 32 →
        (calculateSubnetInfo ip (some (p : Int))).firstUsable
            = bigEndian ((toUint [(a : Int), (b : Int), (c : Int), (d : Int)] + 1)
              % 4294967296)
          ∧ (calculateSubnetInfo ip (some (p : Int))).lastUsable
            = bigEndian ((toUint [(a : Int), (b : Int), (c : Int), (d : Int)] + 4294967295)
              % 4294967296))
      ∧ (calculateSubnetInfo "255.255.255.255".toList (some 32)).firstUsable = [0, 0, 0, 0]
      ∧ (calculateSubnetInfo "0.0.0.0".toList (some 32)).lastUsable = [255, 255, 255, 255] := by
  have hf : (calculateSubnetInfo ip (some (p : Int))).firstUsable
      = bigEndian ((toUint (calculateSubnetInfo ip (some (p : Int))).network + 1)
        % 4294967296) := by
    rw [network_toUint, firstUsable_eq, octets_bigEndian, ToUint32_ofInt, int_succ_mod]
  have hl : (calculateSubnetInfo ip (some (p : Int))).lastUsable
      = bigEndian ((toUint (calculateSubnetInfo ip (some (p : Int))).broadcast + 4294967295)
        % 4294967296) := by
    rw [broadcast_toUint, lastUsable_eq, octets_bigEndian, ToUint32_ofInt, int_pred_mod]
  refine ⟨hf, hl, ?_, ?_, by decide, by decide⟩
  · intro h31
    subst h31
    have hb := broadcast_of_pos ip 31 (by decide) (by decide)
    have hn := network_of_pos ip 31 (by decide) (by decide)
    rw [show (2 : Nat) ^ (32 - 31) = 2 from rfl] at hb hn
    constructor
    · rw [firstUsable_eq, broadcast_eq, hb, hn]
      congr 1
    · rw [lastUsable_eq, network_eq, hb, hn]
      congr 1
      push_cast
      ring
  · intro h32
    subst h32
    have hip := ipU_of_octets ip a b c d h
    have hm : maskU (some ((32 : Nat) : Int)) = 2 ^ 32 - 1 := by decide
    have hand : ipU ip &&& maskU (some ((32 : Nat) : Int)) = ipU ip := by
      rw [hm, Nat.and_pow_two_sub_one_eq_mod]
      exact Nat.mod_eq_of_lt (ipU_lt ip)
    rw [hf, hl, network_toUint, broadcast_toUint, hand, hm, toUint_quad, ← hip]
    simp

/-- Witness of C16 at 10.0.0.4/31. -/
theorem usable_range_wraps_witness :
    HasOctets "10.0.0.4".toList 10 0 0 4 ∧ 31 ≤ 32
      ∧ (calculateSubnetInfo "10.0.0.4".toList (some ((31 : Nat) : Int))).firstUsable
        = (calculateSubnetInfo "10.0.0.4".toList (some ((31 : Nat) : Int))).broadcast :=
  ⟨⟨by rfl, by decide, by decide, by decide, by decide⟩, by decide,
    ((usable_range_wraps "10.0.0.4".toList 10 0 0 4 31
      ⟨by rfl, by decide, by decide, by decide, by decide⟩ (by decide)).2.2.1 rfl).1⟩

/-- C18: for every address with four octets in `[0, 255]` and every prefix in
`[0, 32]`, the input address lies inside the reported subnet:
`network ≤ ip ≤ broadcast` as unsigned 32-bit values. -/
theorem address_in_subnet (ip : List Char) (a b c d p : Nat) (h : HasOctets ip a b c d)
    (_hp : p ≤ 32) :
    toUint (calculateSubnetInfo ip (some (p : Int))).network
        ≤ toUint [(a : Int), (b : Int), (c : Int), (d : Int)]
      ∧ toUint [(a : Int), (b : Int), (c : Int), (d : Int)]
        ≤ toUint (calculateSubnetInfo ip (some (p : Int))).broadcast := by
  rw [network_toUint, broadcast_toUint, toUint_quad, ← ipU_of_octets ip a b c d h]
  exact ⟨Nat.and_le_left, le_and_or_not _ _ (ipU_lt ip) (maskU_lt _)⟩

/-- Witness of C18 at 192.168.1.10/24. -/
theorem address_in_subnet_witness :
    HasOctets "192.168.1.10".toList 192 168 1 10 ∧ 24 ≤ 32
      ∧ toUint (calculateSubnetInfo "192.168.1.10".toList (some ((24 : Nat) : Int))).network
        ≤ toUint [((192 : Nat) : Int), ((168 : Nat) : Int), ((1 : Nat) : Int), ((10 : Nat) : Int)] :=
  ⟨⟨by rfl, by decide, by decide, by decide, by decide⟩, by decide,
    (address_in_subnet "192.168.1.10".toList 192 168 1 10 24
      ⟨by rfl, by decide, by decide, by decide, by decide⟩ (by decide)).1⟩

/-! ## Rejected inputs, white space, and members of one subnet -/

/-- C15: parsing is insensitive to surrounding white space: for every string `s`
and all strings `w1`, `w2` of white space, `parseInput` gives on `w1 ++ s ++ w2`
the same outcome (the same address and prefix, or the same error) as on the
trimmed `s`. -/
theorem parseInput_ignores_surrounding_ws (s w1 w2 : List Char)
    (h1 : ∀ c ∈ w1, isWhiteSpace c = true) (h2 : ∀ c ∈ w2, isWhiteSpace c = true) :
    parseInput (w1 ++ s ++ w2) = parseInput (trim s) := by
  obtain ⟨w0, w3, h0, h3, e⟩ := trim_decompose s
  have hu : ∀ c ∈ w1 ++ w0, isWhiteSpace c = true := by
    intro c hc
    rcases List.mem_append.mp hc with h | h
    · exact h1 c h
    · exact h0 c h
  have hv : ∀ c ∈ w3 ++ w2, isWhiteSpace c = true := by
    intro c hc
    rcases List.mem_append.mp hc with h | h
    · exact h3 c h
    · exact h2 c h
  have e2 : w1 ++ s ++ w2 = (w1 ++ w0) ++ (trim s ++ (w3 ++ w2)) := by
    conv_lhs => rw [e]
    simp only [List.append_assoc]
  rw [e2]
  exact parseInput_surround _ _ _ hu hv

/-- Witness of C15 at the input 10.0.0.5/30 between a blank and a tab. -/
theorem parseInput_ignores_surrounding_ws_witness :
    parseInput (" ".toList ++ "10.0.0.5/30".toList ++ "\t ".toList)
      = parseInput (trim "10.0.0.5/30".toList) :=
  parseInput_ignores_surrounding_ws "10.0.0.5/30".toList " ".toList "\t ".toList
    (by decide) (by decide)

/-- C14: `parseInput` fails with an error, and returns no result, for every
input that does not split into exactly two parts on the slash, or whose address
part does not split into exactly four parts on the dot, or has an address part
whose integer value is outside `[0, 255]`, or has a prefix part whose integer
value is below 0 or above 32. -/
theorem parseInput_rejects (input : List Char)
    (h : (split input '/').length ≠ 2
      ∨ (split (trim ((split input '/').getD 0 [])) '.').length ≠ 4
      ∨ (∃ part ∈ split (trim ((split input '/').getD 0 [])) '.',
          ∃ v, parseInt part = some v ∧ (v < 0 ∨ 255 < v))
      ∨ (∃ v, parseInt (trim ((split input '/').getD 1 [])) = some v ∧ (v < 0 ∨ 32 < v))) :
    ∃ msg, parseInput input = Except.error msg := by
  unfold parseInput
  by_cases hl : (split input '/').length ≠ 2
  · exact ⟨_, if_pos hl⟩
  · rw [if_neg hl]
    by_cases hv : isValidIP (trim ((split input '/').getD 0 [])) = true
    · obtain ⟨h4, hparts⟩ := isValidIP_true _ hv
      rcases h with h | h | h | h
      · exact absurd h hl
      · exact absurd h4 h
      · obtain ⟨part, hp, v, hv1, hv2⟩ := h
        obtain ⟨w, hw1, hw2, hw3⟩ := hparts part hp
        rw [hv1] at hw1
        cases hw1
        omega
      · obtain ⟨v, hv1, hv2⟩ := h
        have hc : (decide (v < 0) || decide (v > 32)) = true := by
          simp only [Bool.or_eq_true, decide_eq_true_eq]
          omega
        rw [if_neg (by rw [hv]; decide)]
        simp only [hv1]
        exact ⟨_, if_pos hc⟩
    · have hf : isValidIP (trim ((split input '/').getD 0 [])) = false :=
        Bool.eq_false_iff.mpr hv
      exact ⟨_, if_pos (by rw [hf]; decide)⟩

/-- Witness of C14 at the five rejected inputs of the specification. -/
theorem parseInput_rejects_witness :
    (∃ msg, parseInput "1.2.3.4".toList = Except.error msg)
      ∧ (∃ msg, parseInput "1.2.3/24".toList = Except.error msg)
      ∧ (∃ msg, parseInput "999.1.1.1/24".toList = Except.error msg)
      ∧ (∃ msg, parseInput "1.2.3.4/-1".toList = Except.error msg)
      ∧ (∃ msg, parseInput "1.2.3.4/33".toList = Except.error msg) :=
  ⟨parseInput_rejects "1.2.3.4".toList (Or.inl (by decide)),
    parseInput_rejects "1.2.3/24".toList (Or.inr (Or.inl (by decide))),
    parseInput_rejects "999.1.1.1/24".toList
      (Or.inr (Or.inr (Or.inl ⟨"999".toList, by decide, 999, by decide, by decide⟩))),
    parseInput_rejects "1.2.3.4/-1".toList
      (Or.inr (Or.inr (Or.inr ⟨-1, by decide, by decide⟩))),
    parseInput_rejects "1.2.3.4/33".toList
      (Or.inr (Or.inr (Or.inr ⟨33, by decide, by decide⟩)))⟩

/-- C17 (defect): `parseInput` accepts `1a.2.3.4/24` and `1e3.2.3.4/24`, for which
`isValidIP` checked the first octet as `parseInt` reads it, `1`; the first octet
that `calculateSubnetInfo` derives with `Number` and returns in the field `ip` is
`NaN` for the first input and `1000` for the second, neither an integer in
`[0, 255]` equal to the value checked. -/
theorem octets_differ_from_validated :
    parseInput "1a.2.3.4/24".toList = Except.ok ("1a.2.3.4".toList, some 24)
      ∧ parseInt "1a".toList = some 1
      ∧ (calculateSubnetInfo "1a.2.3.4".toList (some 24)).ip
        = [JSNum.nan, JSNum.fin 2, JSNum.fin 3, JSNum.fin 4]
      ∧ parseInput "1e3.2.3.4/24".toList = Except.ok ("1e3.2.3.4".toList, some 24)
      ∧ parseInt "1e3".toList = some 1
      ∧ (calculateSubnetInfo "1e3.2.3.4".toList (some 24)).ip
        = [JSNum.fin 1000, JSNum.fin 2, JSNum.fin 3, JSNum.fin 4] :=
  ⟨by rfl, by decide, by decide, by rfl, by decide, by decide⟩

/-- C19: the record depends only on the subnet, not on the member address given.
For every address `a` with octets in `[0, 255]`, every prefix `p` in `[0, 32]` and
every address `b` with octets in `[0, 255]` and `network(a,p) ≤ b ≤ broadcast(a,p)`
as unsigned 32-bit values, the record for `(b, p)` has the same mask, network,
broadcast, firstUsable, lastUsable, totalHosts and usableHosts as the record for
`(a, p)`; in particular so has the record for every address string whose octets
are those of the returned network address. -/
theorem subnet_independent_of_member (ipA ipB : List Char)
    (a0 a1 a2 a3 b0 b1 b2 b3 p : Nat) (_hA : HasOctets ipA a0 a1 a2 a3)
    (hB : HasOctets ipB b0 b1 b2 b3) (hp : p ≤ 32)
    (hlo : toUint (calculateSubnetInfo ipA (some (p : Int))).network
      ≤ toUint [(b0 : Int), (b1 : Int), (b2 : Int), (b3 : Int)])
    (hhi : toUint [(b0 : Int), (b1 : Int), (b2 : Int), (b3 : Int)]
      ≤ toUint (calculateSubnetInfo ipA (some (p : Int))).broadcast) :
    SameSubnet (calculateSubnetInfo ipB (some (p : Int)))
        (calculateSubnetInfo ipA (some (p : Int)))
      ∧ ∀ ipN : List Char,
        (split ipN '.').map Number
            = (calculateSubnetInfo ipA (some (p : Int))).network.map JSNum.ofInt
          → SameSubnet (calculateSubnetInfo ipN (some (p : Int)))
            (calculateSubnetInfo ipA (some (p : Int))) := by
  constructor
  · rw [network_toUint, toUint_quad, ← ipU_of_octets ipB b0 b1 b2 b3 hB] at hlo
    rw [broadcast_toUint, toUint_quad, ← ipU_of_octets ipB b0 b1 b2 b3 hB] at hhi
    exact sameSubnet_of_and_eq ipA ipB _
      (and_eq_of_between (ipU ipA) (ipU ipB) p hp (ipU_lt _) (ipU_lt _) hlo hhi)
  · intro ipN hN
    apply sameSubnet_of_and_eq
    rw [ipParts_network ipA ipN _ hN, and_and_self]

/-- Witness of C19: 192.168.1.77 lies in the subnet of 192.168.1.10/24. -/
theorem subnet_independent_of_member_witness :
    SameSubnet (calculateSubnetInfo "192.168.1.77".toList (some ((24 : Nat) : Int)))
      (calculateSubnetInfo "192.168.1.10".toList (some ((24 : Nat) : Int))) :=
  (subnet_independent_of_member "192.168.1.10".toList "192.168.1.77".toList
    192 168 1 10 192 168 1 77 24
    ⟨by rfl, by decide, by decide, by decide, by decide⟩
    ⟨by rfl, by decide, by decide, by decide, by decide⟩ (by decide) (by decide)
    (by decide)).1

end SubnetCalculator
